import Mathlib

/-!
Verification of the decorator-framework repository (Pojang/Yeezy).

We shallowly embed the registry and wrapping-policy code of
`src/src/pojang/app.py`, `src/src/pojang/helper/util.py`,
`src/src/yeezy/app.py` and `src/src/experiment/util.py`.

Python runtime values are modelled by the inductive `PyVal` below.
Python `bool` is a subtype of `int` (`True == 1`), so booleans are
modelled as the integers 0 and 1.  In-place mutation of an object is
modelled by letting a function body return, next to its output, the
post-call values of the objects bound to its parameters; aliasing
between a caller-visible object and a wrapper-held reference is then
tracked explicitly by the wrapper embeddings (comments at each
definition explain which reference each dictionary slot holds).
-/

namespace Pojang

/-- Model of a Python runtime value as used by the wrapped calls in this
repository.  `vlist xs` is a Python list holding integers (the element
type is immaterial to the wrapping machinery, which only copies and
compares values; integer elements keep equality decidable).  `vpair` is
a Python 2-tuple, as produced by `inspect.getmembers`.  `vempty` is the
`inspect.Parameter.empty` sentinel that `v.default` yields for a
parameter without a default, and `vinst` is the opaque registry object
(`self`) that `fire_if` passes to predicates.  Python `bool` is a
subtype of `int` (`True == 1`), so booleans are the integers 0 and 1. -/
inductive PyVal where
  | vnone : PyVal
  | vint (n : Int) : PyVal
  | vstr (s : String) : PyVal
  | vlist (xs : List Int) : PyVal
  | vpair (fst : PyVal) (snd : PyVal) : PyVal
  | vempty : PyVal
  | vinst : PyVal
deriving DecidableEq, Repr

/-- Python truthiness for `PyVal` (used by `if fire_event:` in `fire_if`). -/
def truthy : PyVal → Bool
  | .vnone => false
  | .vint n => n != 0
  | .vstr s => s != ""
  | .vlist xs => !xs.isEmpty
  | .vpair _ _ => true
  | .vempty => true
  | .vinst => true

/-- A Python function parameter as seen through `inspect.signature`:
its name and (optionally) its default value.  `default` is `none` when
the parameter has no default, in which case `v.default` in the source
yields the `inspect.Parameter.empty` sentinel (`PyVal.vempty`). -/
structure Param where
  name : String
  default : Option PyVal
deriving DecidableEq, Repr

/-- A Python function, as far as the wrapping machinery observes it:
its parameter list and its body.  The body receives the values bound to
the parameters (in parameter order) and returns the post-call values of
those same bindings together with the return value; a binding whose
post-call value differs from its pre-call value models an argument that
the body mutated in place. -/
structure PyFunc where
  params : List Param
  body : List PyVal → List PyVal × PyVal

/-- Python dict lookup `kwargs[k]` (first match wins; Python dict keys
are unique anyway). -/
def kwLookup (kwargs : List (String × PyVal)) (k : String) : Option PyVal :=
  match kwargs with
  | [] => none
  | (k2, v) :: rest => if k2 = k then some v else kwLookup rest k

/-- Python dict assignment `m[k] = v`: overwrite in place (preserving
the key's position) when the key exists, append otherwise. -/
def dictAssign {α : Type} (m : List (String × α)) (k : String) (v : α) :
    List (String × α) :=
  if k ∈ m.map Prod.fst then m.map (fun e => if e.1 = k then (k, v) else e)
  else m ++ [(k, v)]

/-- Values bound to `f`'s parameters by the call `f(*args, **kwargs)`:
positional arguments first, then keyword arguments by name, then the
parameter's default object. -/
def bindParams : List Param → List PyVal → List (String × PyVal) → List PyVal
  | [], _, _ => []
  | _ :: ps, a :: as, kwargs => a :: bindParams ps as kwargs
  | p :: ps, [], kwargs =>
      (match kwLookup kwargs p.name with
       | some v => v
       | none => p.default.getD PyVal.vempty) :: bindParams ps [] kwargs

/-- `callBindings f args kwargs` is the binding list the call
`f(*args, **kwargs)` hands to `f`'s body. -/
def callBindings (f : PyFunc) (args : List PyVal) (kwargs : List (String × PyVal)) :
    List PyVal :=
  bindParams f.params args kwargs

/-- Embedding of `get_shallow_default_arg_dict(fn, args)`
(src/src/pojang/helper/util.py lines 62-87): the dict
`{**dict(zip(code.co_varnames[:len(args)], args)),
   **{k: v.default for index of k >= len(args)}}`.
The first `len(args)` entries pair parameter names with the positional
arguments; every later parameter is paired with its default object
(`Parameter.empty` when it has none).  Keyword arguments are not
consulted: the helper does not even take `kwargs`. -/
def shallowDict : List Param → List PyVal → List (String × PyVal)
  | [], _ => []
  | p :: ps, a :: as => (p.name, a) :: shallowDict ps as
  | p :: ps, [] => (p.name, p.default.getD PyVal.vempty) :: shallowDict ps []

/-- `get_shallow_default_arg_dict` applied to a `PyFunc`. -/
def get_shallow_default_arg_dict (f : PyFunc) (args : List PyVal) :
    List (String × PyVal) :=
  shallowDict f.params args

/-- Post-call values of the objects held by the dict that
`get_shallow_default_arg_dict` built before `Pojang.pure`'s wrapper
invoked the function (app.py lines 184-193).  Slot by slot:
a slot filled from a positional argument holds the object the call
bound, so after the call it shows that binding's post-call value; a
slot filled with the parameter's default object is aliased with the
call's binding exactly when the caller did not pass that parameter by
keyword — when the caller did, the call bound the keyword object while
the dict keeps the (unmutated) default object. -/
def postShallowDict :
    List Param → List PyVal → List (String × PyVal) → List PyVal →
      List (String × PyVal)
  | [], _, _, _ => []
  | _ :: _, _, _, [] => []
  | p :: ps, _ :: as, kwargs, q :: qs => (p.name, q) :: postShallowDict ps as kwargs qs
  | p :: ps, [], kwargs, q :: qs =>
      (p.name,
        match kwLookup kwargs p.name with
        | some _ => p.default.getD PyVal.vempty
        | none => q) :: postShallowDict ps [] kwargs qs

/-- The data carried by the error the default `event_cb` of
`Pojang.pure` raises (app.py lines 168-173): the argument name and its
before/after values.  The exception class referenced there is
`exceptions.MutatedReferenceError` (src/src/pojang/exceptions.py is not
under src/; the spec calls this error kind `MutatedArgumentError`). -/
structure MutErr where
  argName : String
  before : PyVal
  after : PyVal
deriving DecidableEq, Repr

/-- The comparison loop of `Pojang.pure`'s wrapper (app.py lines
189-194): walk the post-call dict against the deep-copied pre-call
dict and fire the callback on the first slot whose value changed (the
default callback raises, so the loop stops at the first change).  Both
dicts share the same key sequence by construction. -/
def firstMutation :
    List (String × PyVal) → List (String × PyVal) → Option MutErr
  | (k, b) :: pre, (_, a) :: post =>
      if a = b then firstMutation pre post else some ⟨k, b, a⟩
  | _, _ => none

/-- Embedding of the wrapper `Pojang.pure` builds with the default
`event_cb` (app.py lines 154-198): snapshot
`get_shallow_default_arg_dict(function, args)` and deep-copy it, call
the function, compare every slot of the (post-call) dict against the
copy, and raise `MutatedReferenceError(key, before, after)` on the
first changed slot, otherwise return the function's output. -/
def pure_wrapped (f : PyFunc) (args : List PyVal)
    (kwargs : List (String × PyVal)) : Except MutErr PyVal :=
  let res := f.body (callBindings f args kwargs)
  let input_pre := get_shallow_default_arg_dict f args
  let input_post := postShallowDict f.params args kwargs res.1
  match firstMutation input_pre input_post with
  | some e => Except.error e
  | none => Except.ok res.2

/-- Appending 2 to a Python list in place, as the spec's example
`f(a=[1])` does; other values are left unchanged. -/
def appendTwo : PyVal → PyVal
  | .vlist xs => .vlist (xs ++ [2])
  | v => v

/-- The one-parameter function of the spec's example: `f(a)` appends 2
to `a` in place and returns `a`. -/
def appendBodyFn : PyFunc :=
  ⟨[⟨"a", none⟩], fun bs => ([appendTwo (bs.headD PyVal.vnone)],
      appendTwo (bs.headD PyVal.vnone))⟩

/-- The property the spec asserts of the raised mutation error: it
cites, for the first parameter slot whose value changed, that slot's
name together with its before-call and after-call values. -/
def citesFirstMutation (names : List String) (bs qs : List PyVal)
    (e : MutErr) : Prop :=
  ∃ i : Nat, names[i]? = some e.argName ∧ bs[i]? = some e.before ∧
    qs[i]? = some e.after ∧ e.after ≠ e.before ∧
    ∀ j, j < i → qs[j]? = bs[j]?

/-- Registration entry stored in `self.functions` by
`Pojang._update_decoration_info` (app.py lines 541-553): the keys
`name`, `func` and `props` of the dict literal there.  Function objects
are identified by a numeric object id and the statistics object is kept
opaque (a tag), since registration never inspects either. -/
structure RegEntry where
  name : String
  func : Nat
  props : Nat
deriving DecidableEq, Repr

/-- Embedding of `Pojang._update_decoration_info` (app.py lines
541-553) acting on the ordered dict `self.functions` and the log: when
`func_name` is already a key, log the duplicate (via `log_debug`, which
writes only when the `debug` config is on) and leave the dict alone;
otherwise append a fresh entry. -/
def update_decoration_info (debug : Bool)
    (functions : List (String × RegEntry)) (log : List String)
    (func_name : String) (func : Nat) (props : Nat) :
    List (String × RegEntry) × List String :=
  if func_name ∈ functions.map Prod.fst then
    (functions,
      if debug then
        log ++ ["DEBUG: Found duplicate decorator with identity: " ++ func_name]
      else log)
  else
    (functions ++ [(func_name, ⟨func_name, func, props⟩)], log)

/-- Python equality between a function object and a string dict key:
always false.  `Yeezy.register` (yeezy/app.py line 395) runs
`if func not in function_map:` — a containment test of the callable
against the map's string keys. -/
def funcEqStrKey (_func : Nat) (_key : String) : Bool :=
  false

/-- Embedding of `Yeezy.register` (yeezy/app.py lines 383-396): test
`func not in function_map` against the string keys (always true, since
a callable never equals a string) and then run
`function_map[func_name] = func`.  No log is written on either path;
the second component is the (empty) log output. -/
def yeezy_register (func_name : String) (func : Nat)
    (function_map : List (String × Nat)) :
    List (String × Nat) × List String :=
  if (function_map.map Prod.fst).any (funcEqStrKey func) then
    (function_map, [])
  else
    (dictAssign function_map func_name func, [])

/-- Embedding of the wrapper `Pojang.trace` returns (app.py lines
452-456): its body is only `return func(*args, **kwargs)`.  The second
component is the per-call log output, which is empty — the
snapshot/compare/record logic of the trace policy exists only inside a
commented-out block of the Yeezy variant, and `warn_side_effects` is
never read. -/
def trace_wrapped (f : PyFunc) (args : List PyVal)
    (kwargs : List (String × PyVal)) : PyVal × List String :=
  ((f.body (callBindings f args kwargs)).2, [])

/-- Error kinds raised by the embedded code paths.  `valueError` and
`typeError` are Python's builtin `ValueError` and `TypeError`.
`invalidPropertyError` is the `InvalidPropertyError` kind named by the
spec (the repository's exceptions module is not under src/); it is
included so that statements can distinguish it from the builtin kinds
the code actually raises. -/
inductive PyErr where
  | valueError : PyErr
  | typeError : PyErr
  | invalidPropertyError : PyErr
deriving DecidableEq, Repr

/-- A `(name, value)` member tuple as produced by
`inspect.getmembers(cls)` (app.py line 401). -/
def memberTuple (m : String × PyVal) : PyVal :=
  PyVal.vpair (PyVal.vstr m.1) m.2

/-- `isinstance(prop, str)` (app.py line 412). -/
def isStr : PyVal → Bool
  | .vstr _ => true
  | _ => false

/-- Embedding of the property-validation loop of `Pojang.observe`
(app.py lines 388-428) for properties passed as a list/tuple:
`class_props` is the list of non-method `(name, value)` member tuples
of the class; for each entry of `properties`, first raise `ValueError`
when the entry is not contained in `class_props` (a string is compared
against member *tuples* here), then raise `ValueError` when the entry
is not a string, else continue. -/
def observe_class (properties : List PyVal)
    (class_props : List (String × PyVal)) : Except PyErr Unit :=
  match properties with
  | [] => Except.ok ()
  | prop :: rest =>
    if prop ∈ class_props.map memberTuple then
      if isStr prop then observe_class rest class_props
      else Except.error PyErr.valueError
    else Except.error PyErr.valueError

/-- A predicate (or callback) argument of `fire_if`, with the calling
convention Python enforces: `arity` positional parameters, `varargs`
when it has a `*args` parameter, `acceptsKwargs` when it has a
`**kwargs` parameter.  (Binding keyword arguments to named positional
parameters is not needed by any predicate in the sources and is not
modelled.)  `impl` computes its value from the positional and keyword
arguments. -/
structure Predicate where
  arity : Nat
  varargs : Bool
  acceptsKwargs : Bool
  impl : List PyVal → List (String × PyVal) → PyVal

/-- Calling a `Predicate`: Python raises `TypeError` when the number
of positional arguments cannot be bound (not exactly `arity`, or fewer
than `arity` with `*args`) or when keyword arguments are passed to a
callable without `**kwargs`. -/
def callPred (p : Predicate) (pos : List PyVal)
    (kw : List (String × PyVal)) : Except PyErr PyVal :=
  if (pos.length = p.arity ∨ (p.varargs ∧ p.arity ≤ pos.length)) ∧
      (kw = [] ∨ p.acceptsKwargs = true) then
    Except.ok (p.impl pos kw)
  else
    Except.error PyErr.typeError

/-- The default predicate of `fire_if` (app.py line 321):
`lambda x: x` — one positional parameter, no `*args`, no `**kwargs`,
returning its argument. -/
def defaultPred : Predicate :=
  ⟨1, false, false, fun pos _ => pos.headD PyVal.vnone⟩

/-- Record of one subscribed-event invocation performed by `fire_if`'s
wrapper: which event fired and the `(output, *args, **kwargs)` it was
called with.  Events are identified by a numeric id. -/
structure FiredEvent where
  event : Nat
  output : PyVal
  args : List PyVal
  kwargs : List (String × PyVal)
deriving DecidableEq, Repr

/-- Embedding of the wrapper `Pojang.fire_if` builds (app.py lines
353-366): compute `output = func(*args, **kwargs)`, evaluate
`predicate(output, self, *args, **kwargs)` (which may raise
`TypeError`), and when the result is truthy call every subscribed
event with `(output, *args, **kwargs)`; return `output`. -/
def fire_if_wrapped (events_to_fire : List Nat) (predicate : Predicate)
    (func : List PyVal → List (String × PyVal) → PyVal)
    (args : List PyVal) (kwargs : List (String × PyVal)) :
    Except PyErr (PyVal × List FiredEvent) :=
  let output := func args kwargs
  match callPred predicate (output :: PyVal.vinst :: args) kwargs with
  | Except.error e => Except.error e
  | Except.ok fire_event =>
      Except.ok (output,
        if truthy fire_event then
          events_to_fire.map (fun ev => ⟨ev, output, args, kwargs⟩)
        else [])

/-- Modelled from the spec: the class `TimeStatistics` of
src/src/pojang/helper/properties.py is not under src/.  Spec §3 names
the Statistics aggregate a mutable (count, cumulative/average
duration) record updated after every call, and §8 requires that after
N calls the count is N and the average is the sum of elapsed times
over N; durations are rationals here. -/
structure TimeStatistics where
  count : Nat
  total : ℚ
deriving DecidableEq, Repr

/-- Modelled from the spec: one `update(time_elapsed)` step of the
Statistics aggregate (called at app.py line 605). -/
def TimeStatistics.update (s : TimeStatistics) (time_elapsed : ℚ) :
    TimeStatistics :=
  ⟨s.count + 1, s.total + time_elapsed⟩

/-- Modelled from the spec: the running average of the aggregate. -/
def TimeStatistics.avg (s : TimeStatistics) : ℚ :=
  s.total / (s.count : ℚ)

/-- Modelled from the spec: a fresh aggregate (no calls recorded). -/
def TimeStatistics.mk0 : TimeStatistics :=
  ⟨0, 0⟩

/-- The registry entry slots `Pojang.stopwatch` uses: `func`, the
`props` statistics aggregate, and the `input` slot initialised to 0 at
decoration time (app.py line 596). -/
structure StopEntry where
  func : Nat
  props : TimeStatistics
  input : ℚ
deriving DecidableEq, Repr

/-- Decoration-time initialisation done by `Pojang.stopwatch` (app.py
lines 589-596): register the function with a fresh `TimeStatistics`
and set the entry's input slot to 0. -/
def stopwatch_decorate (fid : Nat) : StopEntry :=
  ⟨fid, TimeStatistics.mk0, 0⟩

/-- One successful call of `Pojang.stopwatch`'s wrapper (app.py lines
598-606), with the measured wall-clock duration `time_elapsed` supplied
by the clock: store the duration in the entry's input slot and feed it
to the statistics aggregate. -/
def stopwatch_call (e : StopEntry) (time_elapsed : ℚ) : StopEntry :=
  { e with input := time_elapsed, props := e.props.update time_elapsed }

/-- `N` consecutive calls of the stopwatch wrapper, with observed
elapsed times `ts`. -/
def stopwatch_calls (e : StopEntry) (ts : List ℚ) : StopEntry :=
  ts.foldl stopwatch_call e

/-- Embedding of the wrapper `Pojang.profile` returns (app.py lines
370-386) over a function that may itself raise: enable the process
profiler, run the call, disable the profiler, return the output.  The
first component is the profiler's enabled flag after the call: when the
call raises, the `disable()` line is skipped and the exception
propagates unchanged. -/
def profile_call (f : List PyVal → Except PyErr PyVal)
    (args : List PyVal) : Bool × Except PyErr PyVal :=
  match f args with
  | Except.ok v => (false, Except.ok v)
  | Except.error e => (true, Except.error e)

/-- The stopwatch wrapper (app.py lines 598-606) over a function that
may itself raise: on success update the entry as `stopwatch_call`
does and return the output; when the call raises, the lines after it
never run, the entry is untouched and the exception propagates. -/
def stopwatch_wrapped (e : StopEntry) (time_elapsed : ℚ)
    (f : List PyVal → Except PyErr PyVal) (args : List PyVal) :
    StopEntry × Except PyErr PyVal :=
  match f args with
  | Except.ok v => (stopwatch_call e time_elapsed, Except.ok v)
  | Except.error err => (e, Except.error err)

/-- Embedding of `fill_default_kwargs(fn, args, kwargs)`
(src/src/pojang/helper/util.py lines 48-59): for every parameter whose
index is at least `len(args)`, run `kwargs[k] = v.default` — including
parameters the caller did supply by keyword, whose entries are
overwritten.  The second argument counts the positional budget still
to be consumed. -/
def fillDefaultsFrom :
    List Param → Nat → List (String × PyVal) → List (String × PyVal)
  | [], _, kwargs => kwargs
  | _ :: ps, Nat.succ n, kwargs => fillDefaultsFrom ps n kwargs
  | p :: ps, 0, kwargs =>
      fillDefaultsFrom ps 0 (dictAssign kwargs p.name (p.default.getD PyVal.vempty))

/-- `fill_default_kwargs` applied to a `PyFunc`. -/
def fill_default_kwargs (f : PyFunc) (args : List PyVal)
    (kwargs : List (String × PyVal)) : List (String × PyVal) :=
  fillDefaultsFrom f.params args.length kwargs

/-- Embedding of the wrapper `Pojang.run_before` builds (app.py lines
555-580) for a list of callbacks (callbacks are identified by numeric
ids; a single callback is the singleton list): mutate `kwargs` via
`fill_default_kwargs`, call every callback with the resulting
`(*args, **kwargs)`, then call `fn` with those same arguments and
return its output.  The second component records the callback
invocations with the argument values they observed. -/
def run_before_wrapped (cbs : List Nat) (fn : PyFunc)
    (args : List PyVal) (kwargs : List (String × PyVal)) :
    PyVal × List (Nat × List PyVal × List (String × PyVal)) :=
  let kw2 := fill_default_kwargs fn args kwargs
  ((fn.body (callBindings fn args kw2)).2, cbs.map (fun c => (c, args, kw2)))

/-- The two-parameter function used to exercise `run_before`:
`fn(a, b=2)` returns `a + b` and mutates nothing. -/
def addBody (bs : List PyVal) : List PyVal × PyVal :=
  match bs with
  | [PyVal.vint a, PyVal.vint b] => ([PyVal.vint a, PyVal.vint b], PyVal.vint (a + b))
  | _ => (bs, PyVal.vnone)

/-- `fn(a, b=2)` with body `addBody`. -/
def addFn : PyFunc :=
  ⟨[⟨"a", none⟩, ⟨"b", some (PyVal.vint 2)⟩], addBody⟩

/-- A Python function object as `get_unique_func_name` observes it:
its `__module__`, its `__qualname__`, and its object identity `oid`
(two distinct function objects have distinct `oid`s; e.g. two lambdas
defined in the same module share module and qualname but not `oid`). -/
structure PyFunction where
  module : String
  qualname : String
  oid : Nat
deriving DecidableEq, Repr

/-- Embedding of `get_unique_func_name(func)`
(src/src/pojang/helper/util.py lines 117-118):
the f-string of `func.__module__`, a dot, and `func.__qualname__`. -/
def get_unique_func_name (f : PyFunction) : String :=
  f.module ++ "." ++ f.qualname

/-- `len(...)` of a Python value. -/
def pyLen : PyVal → Nat
  | .vlist xs => xs.length
  | .vstr s => s.length
  | _ => 0

/-- A Python `bool` as a value: `True == 1`, `False == 0`. -/
def boolVal (b : Bool) : PyVal :=
  if b then PyVal.vint 1 else PyVal.vint 0

/-- The predicate of the spec's fire-if test:
`lambda output, instance, arr: len(arr) > 5` — three positional
parameters; the third is the wrapped call's single argument. -/
def lenGt5Pred : Predicate :=
  ⟨3, false, false, fun pos _ => boolVal (decide (5 < pyLen (pos.getD 2 PyVal.vnone)))⟩

/-- The wrapped function of the fire-if sample (app.py lines 335-337):
`def do_something(arr): return sum(arr)`. -/
def sumFn : List PyVal → List (String × PyVal) → PyVal :=
  fun args _ =>
    match args.headD PyVal.vnone with
    | .vlist xs => PyVal.vint xs.sum
    | _ => PyVal.vnone

/-- The six-element list of the fire-if sample. -/
def sixList : PyVal :=
  PyVal.vlist [1, 2, 3, 4, 5, 6]

/-- The two-element list of the fire-if sample. -/
def twoList : PyVal :=
  PyVal.vlist [20, 30]

end Pojang

namespace Pojang

/-- A call binds exactly one value per parameter. -/
theorem bindParams_length (ps : List Param) (args : List PyVal)
    (kwargs : List (String × PyVal)) :
    (bindParams ps args kwargs).length = ps.length := by
  induction ps generalizing args with
  | nil => simp [bindParams]
  | cons p ps ih =>
    cases args with
    | nil => simp [bindParams, ih]
    | cons a as => simp [bindParams, ih]

/-- For a call without keyword arguments, the dict built by
`get_shallow_default_arg_dict` pairs each parameter name with exactly
the object the call bound to that parameter. -/
theorem shallowDict_eq_zip (ps : List Param) (args : List PyVal) :
    shallowDict ps args = (ps.map Param.name).zip (bindParams ps args []) := by
  induction ps generalizing args with
  | nil => cases args <;> simp [shallowDict, bindParams]
  | cons p ps ih =>
    cases args with
    | nil => simp [shallowDict, bindParams, kwLookup, ih]
    | cons a as => simp [shallowDict, bindParams, ih]

/-- For a call without keyword arguments, every slot of the snapshot
dict is aliased with the call's binding, so after the call it pairs
each parameter name with that binding's post-call value. -/
theorem postShallowDict_nil_kwargs (ps : List Param) (args post : List PyVal) :
    postShallowDict ps args [] post = (ps.map Param.name).zip post := by
  induction ps generalizing args post with
  | nil => simp [postShallowDict]
  | cons p ps ih =>
    cases post with
    | nil => cases args <;> simp [postShallowDict]
    | cons q qs =>
      cases args with
      | nil => simp [postShallowDict, kwLookup, ih]
      | cons a as => simp [postShallowDict, ih]

/-- The comparison loop reports nothing exactly when no slot's value
changed. -/
theorem firstMutation_none_iff (names : List String) (bs qs : List PyVal)
    (h1 : bs.length = names.length) (h2 : qs.length = names.length) :
    firstMutation (names.zip bs) (names.zip qs) = none ↔ qs = bs := by
  induction names generalizing bs qs with
  | nil =>
    have hb : bs = [] := List.length_eq_zero.mp h1
    have hq : qs = [] := List.length_eq_zero.mp h2
    subst hb; subst hq
    simp [firstMutation]
  | cons n ns ih =>
    cases bs with
    | nil => simp at h1
    | cons b bs =>
      cases qs with
      | nil => simp at h2
      | cons q qs =>
        have hz : firstMutation ((n :: ns).zip (b :: bs)) ((n :: ns).zip (q :: qs)) =
            (if q = b then firstMutation (ns.zip bs) (ns.zip qs) else some ⟨n, b, q⟩) := rfl
        rw [hz]
        by_cases hqb : q = b
        · subst hqb
          rw [if_pos rfl, ih bs qs (by simpa using h1) (by simpa using h2)]
          simp
        · rw [if_neg hqb]
          simp [hqb]

/-- When the comparison loop does report, it reports the first slot
whose value changed, with that slot's name and its before/after
values. -/
theorem firstMutation_some (names : List String) (bs qs : List PyVal)
    (e : MutErr) (h : firstMutation (names.zip bs) (names.zip qs) = some e) :
    citesFirstMutation names bs qs e := by
  induction names generalizing bs qs with
  | nil => simp [firstMutation] at h
  | cons n ns ih =>
    cases bs with
    | nil => simp [firstMutation] at h
    | cons b bs =>
      cases qs with
      | nil =>
        rw [List.zip_nil_right] at h
        simp [firstMutation] at h
      | cons q qs =>
        have hz : firstMutation ((n :: ns).zip (b :: bs)) ((n :: ns).zip (q :: qs)) =
            (if q = b then firstMutation (ns.zip bs) (ns.zip qs) else some ⟨n, b, q⟩) := rfl
        rw [hz] at h
        by_cases hqb : q = b
        · subst hqb
          rw [if_pos rfl] at h
          obtain ⟨i, hn, hb, hq, hne, hprev⟩ := ih bs qs h
          refine ⟨i + 1, by simpa using hn, by simpa using hb, by simpa using hq, hne, ?_⟩
          intro j hj
          cases j with
          | zero => simp
          | succ j2 => simpa using hprev j2 (by omega)
        · rw [if_neg hqb] at h
          injection h with h2
          subst h2
          exact ⟨0, by simp, by simp, by simp, hqb, fun j hj => absurd hj (Nat.not_lt_zero j)⟩

/-- Claim C1 (code bug at `Yeezy.register`): with `function_map` already
holding the identity `m.f`, `Yeezy.register` takes the not-present
branch again (its membership test compares the callable against the
string keys and is always false), re-runs the assignment — replacing
the entry outright when a distinct function object `8` carries the same
identity — and emits no duplicate log; `Pojang._update_decoration_info`
at the same input leaves the registry untouched and logs the duplicate
(when the debug config is on). -/
theorem yeezy_register_duplicate_silent :
    yeezy_register "m.f" 7 [("m.f", 7)] = ([("m.f", 7)], []) ∧
    yeezy_register "m.f" 8 [("m.f", 7)] = ([("m.f", 8)], []) ∧
    update_decoration_info true [("m.f", ⟨"m.f", 7, 0⟩)] [] "m.f" 7 0 =
      ([("m.f", ⟨"m.f", 7, 0⟩)],
        ["DEBUG: Found duplicate decorator with identity: m.f"]) := by
  refine ⟨rfl, rfl, ?_⟩
  simp [update_decoration_info]

/-- Claim C2 counterexample: the spec's own example passed by keyword.
`f(a)` appends 2 to `a` in place; calling the `pure`-wrapped `f` as
`f(a=[1])` mutates the argument (the call's binding for `a` changes
from `[1]` to `[1, 2]`) yet no error is raised: the wrapper's snapshot
helper ignores keyword arguments and compares the parameter's default
sentinel against itself, so the call returns the output `[1, 2]`. -/
theorem pure_kwarg_mutation_unreported :
    pure_wrapped appendBodyFn [] [("a", PyVal.vlist [1])] =
      Except.ok (PyVal.vlist [1, 2]) ∧
    (appendBodyFn.body (callBindings appendBodyFn [] [("a", PyVal.vlist [1])])).1 ≠
      callBindings appendBodyFn [] [("a", PyVal.vlist [1])] := by
  exact ⟨rfl, by decide⟩

/-- Claim C2 (amended): for a call of a `pure`-wrapped function (default
callback) that passes no keyword arguments, the call returns the
function's output iff no parameter's bound value (positional argument or
filled-in default) was mutated in place, it raises iff some such value
was mutated, and the raised error cites the first mutated parameter's
name with its before-call and after-call values.  (Arguments passed by
keyword are not checked — see the counterexample — and the error class
is `exceptions.MutatedReferenceError`, which the spec calls
`MutatedArgumentError`.) -/
theorem pure_default_cb_positional (f : PyFunc) (args : List PyVal)
    (hpost : (f.body (callBindings f args [])).1.length = f.params.length) :
    (pure_wrapped f args [] = Except.ok (f.body (callBindings f args [])).2 ↔
      (f.body (callBindings f args [])).1 = callBindings f args []) ∧
    ((∃ e, pure_wrapped f args [] = Except.error e) ↔
      ¬ (f.body (callBindings f args [])).1 = callBindings f args []) ∧
    (∀ e, pure_wrapped f args [] = Except.error e →
      citesFirstMutation (f.params.map Param.name) (callBindings f args [])
        (f.body (callBindings f args [])).1 e) := by
  have h1 : (callBindings f args []).length = (f.params.map Param.name).length := by
    rw [List.length_map]
    exact bindParams_length f.params args []
  have h2 : (f.body (callBindings f args [])).1.length =
      (f.params.map Param.name).length := by
    rw [List.length_map]
    exact hpost
  have hrw : pure_wrapped f args [] =
      match firstMutation
          ((f.params.map Param.name).zip (callBindings f args []))
          ((f.params.map Param.name).zip (f.body (callBindings f args [])).1) with
      | some e => Except.error e
      | none => Except.ok (f.body (callBindings f args [])).2 := by
    show (match firstMutation (shallowDict f.params args)
        (postShallowDict f.params args [] (f.body (callBindings f args [])).1) with
      | some e => Except.error e
      | none => Except.ok (f.body (callBindings f args [])).2) = _
    rw [shallowDict_eq_zip, postShallowDict_nil_kwargs]
    rfl
  rcases hfm : firstMutation
      ((f.params.map Param.name).zip (callBindings f args []))
      ((f.params.map Param.name).zip (f.body (callBindings f args [])).1)
    with _ | e0
  · have heq : (f.body (callBindings f args [])).1 = callBindings f args [] :=
      (firstMutation_none_iff _ _ _ h1 h2).mp hfm
    rw [hrw, hfm]
    refine ⟨by simp [heq], by simp [heq], ?_⟩
    intro e he
    exact absurd he (by simp)
  · have hne : ¬ (f.body (callBindings f args [])).1 = callBindings f args [] := by
      intro hqb
      rw [(firstMutation_none_iff _ _ _ h1 h2).mpr hqb] at hfm
      cases hfm
    rw [hrw, hfm]
    refine ⟨by simp [hne], ?_, ?_⟩
    · exact iff_of_true ⟨e0, rfl⟩ hne
    · intro e he
      injection he with he2
      subst he2
      exact firstMutation_some _ _ _ e0 hfm

/-- Claim C2 witness: the spec's example passed positionally.  Applying
the amended theorem to `f([1])`, the wrapped call raises, and the error
cites argument `a` with before `[1]` and after `[1, 2]`. -/
theorem pure_default_cb_positional_witness :
    ∃ e, pure_wrapped appendBodyFn [PyVal.vlist [1]] [] = Except.error e ∧
      citesFirstMutation ["a"] [PyVal.vlist [1]] [PyVal.vlist [1, 2]] e := by
  obtain ⟨-, herr, hcite⟩ :=
    pure_default_cb_positional appendBodyFn [PyVal.vlist [1]] rfl
  obtain ⟨e, he⟩ := herr.mpr (by decide)
  exact ⟨e, he, hcite e he⟩

/-- Claim C3 (code bug): a `Pojang.trace`-wrapped call that mutates its
argument in place (here `f([1])` appending 2) returns the target's
output with an empty per-call log: the wrapper performs no snapshot, no
post-call comparison, no side-effect warning and writes no call
record. -/
theorem trace_wrapper_is_passthrough :
    trace_wrapped appendBodyFn [PyVal.vlist [1]] [] =
      (PyVal.vlist [1, 2], []) ∧
    (appendBodyFn.body (callBindings appendBodyFn [PyVal.vlist [1]] [])).1 ≠
      callBindings appendBodyFn [PyVal.vlist [1]] [] := by
  exact ⟨rfl, by decide⟩

/-- Claim C4 (code bug): `observe` compares each property name against
the `(name, value)` member tuples of the class, so `observe(['x'])`
raises the builtin `ValueError` — not `InvalidPropertyError` — both for
a class that does have attribute `x` (first conjunct: the lookup can
never succeed) and for a class lacking `x` (second conjunct, the
claim's scenario). -/
theorem observe_raises_builtin_valueError :
    observe_class [PyVal.vstr "x"] [("x", PyVal.vint 5)] =
      Except.error PyErr.valueError ∧
    observe_class [PyVal.vstr "x"] [("y", PyVal.vint 1)] =
      Except.error PyErr.valueError ∧
    PyErr.valueError ≠ PyErr.invalidPropertyError := by
  refine ⟨?_, ?_, by decide⟩ <;> rfl

/-- Claim C5: when the predicate call succeeds with value `v`, the
`fire_if`-wrapped call returns the function's output; when `v` is
truthy each subscribed event is invoked — exactly once per subscription
when the subscriptions are distinct — with `(output, *args, **kwargs)`,
and when `v` is falsy no event is invoked. -/
theorem fire_if_spec (events_to_fire : List Nat) (p : Predicate)
    (func : List PyVal → List (String × PyVal) → PyVal)
    (args : List PyVal) (kwargs : List (String × PyVal)) (v : PyVal)
    (h : callPred p (func args kwargs :: PyVal.vinst :: args) kwargs =
      Except.ok v) :
    ∃ fired,
      fire_if_wrapped events_to_fire p func args kwargs =
        Except.ok (func args kwargs, fired) ∧
      (truthy v = true →
        fired = events_to_fire.map
          (fun ev => ⟨ev, func args kwargs, args, kwargs⟩) ∧
        (events_to_fire.Nodup → ∀ ev ∈ events_to_fire,
          (fired.map FiredEvent.event).count ev = 1)) ∧
      (truthy v = false → fired = []) := by
  refine ⟨if truthy v then
      events_to_fire.map (fun ev => ⟨ev, func args kwargs, args, kwargs⟩)
    else [], ?_, ?_, ?_⟩
  · show (match callPred p (func args kwargs :: PyVal.vinst :: args) kwargs with
      | Except.error e => Except.error e
      | Except.ok fire_event =>
          Except.ok (func args kwargs,
            if truthy fire_event then
              events_to_fire.map
                (fun ev => (⟨ev, func args kwargs, args, kwargs⟩ : FiredEvent))
            else [])) = _
    rw [h]
  · intro ht
    rw [if_pos ht]
    refine ⟨rfl, ?_⟩
    intro hnd ev hev
    have hmap : ((events_to_fire.map
        (fun ev => (⟨ev, func args kwargs, args, kwargs⟩ : FiredEvent))).map
          FiredEvent.event) = events_to_fire := by
      rw [List.map_map]
      exact List.map_id events_to_fire
    rw [hmap]
    exact List.count_eq_one_of_mem hnd hev
  · intro hf
    rw [if_neg (by simp [hf])]

/-- Claim C5 witness: the docstring sample with predicate
`len(arr) > 5` and one subscribed event: the six-element list fires the
event exactly once with the output `21` and the original argument, and
the two-element list fires nothing and returns `50`. -/
theorem fire_if_spec_witness :
    fire_if_wrapped [0] lenGt5Pred sumFn [sixList] [] =
      Except.ok (PyVal.vint 21, [⟨0, PyVal.vint 21, [sixList], []⟩]) ∧
    fire_if_wrapped [0] lenGt5Pred sumFn [twoList] [] =
      Except.ok (PyVal.vint 50, []) := by
  constructor
  · obtain ⟨fired, hw, ht, -⟩ :=
      fire_if_spec [0] lenGt5Pred sumFn [sixList] [] (boolVal true) rfl
    obtain ⟨hfired, -⟩ := ht rfl
    rw [hw, hfired]
    rfl
  · obtain ⟨fired, hw, -, hf⟩ :=
      fire_if_spec [0] lenGt5Pred sumFn [twoList] [] (boolVal false) rfl
    rw [hw, hf rfl]
    rfl

/-- Claim C6 helper: folding calls through the stopwatch wrapper adds
the number of calls to the aggregate's count and the observed elapsed
times to its total. -/
theorem stopwatch_count_total (ts : List ℚ) (e : StopEntry) :
    (stopwatch_calls e ts).props.count = e.props.count + ts.length ∧
    (stopwatch_calls e ts).props.total = e.props.total + ts.sum := by
  induction ts generalizing e with
  | nil => simp [stopwatch_calls]
  | cons t ts ih =>
    obtain ⟨hc, htot⟩ := ih (stopwatch_call e t)
    constructor
    · rw [show stopwatch_calls e (t :: ts) = stopwatch_calls (stopwatch_call e t) ts from rfl,
        hc]
      simp [stopwatch_call, TimeStatistics.update]
      omega
    · rw [show stopwatch_calls e (t :: ts) = stopwatch_calls (stopwatch_call e t) ts from rfl,
        htot]
      simp [stopwatch_call, TimeStatistics.update]
      ring

/-- Claim C6 helper: the entry's input slot after a run of calls holds
the elapsed time of the latest call (or its previous value when no call
was made). -/
theorem stopwatch_input_lastD (ts : List ℚ) (e : StopEntry) :
    (stopwatch_calls e ts).input = ts.getLastD e.input := by
  induction ts generalizing e with
  | nil => rfl
  | cons t ts ih =>
    rw [show stopwatch_calls e (t :: ts) =
        stopwatch_calls (stopwatch_call e t) ts from rfl,
      ih, List.getLastD_cons]
    rfl

/-- Claim C6: after `N >= 1` stopwatch-wrapped calls with observed
elapsed times `ts`, the entry's input slot holds the latest call's
duration, the aggregate's count equals `N`, and its average equals the
sum of the observed elapsed times over `N` (exactly, in the rational
model of durations). -/
theorem stopwatch_statistics (fid : Nat) (ts : List ℚ) (h : ts ≠ []) :
    (stopwatch_calls (stopwatch_decorate fid) ts).input = ts.getLast h ∧
    (stopwatch_calls (stopwatch_decorate fid) ts).props.count = ts.length ∧
    (stopwatch_calls (stopwatch_decorate fid) ts).props.avg =
      ts.sum / (ts.length : ℚ) := by
  obtain ⟨hc, htot⟩ := stopwatch_count_total ts (stopwatch_decorate fid)
  refine ⟨?_, ?_, ?_⟩
  · cases ts with
    | nil => exact absurd rfl h
    | cons t ts2 =>
      rw [stopwatch_input_lastD, List.getLast_eq_getLastD, List.getLastD_cons]
  · rw [hc]
    simp [stopwatch_decorate, TimeStatistics.mk0]
  · rw [TimeStatistics.avg, hc, htot]
    simp [stopwatch_decorate, TimeStatistics.mk0]

/-- Claim C6 witness: two calls observed at 1 and 3 time units leave
the latest duration 3 in the input slot, a count of 2, and an average
of 2. -/
theorem stopwatch_statistics_witness :
    (stopwatch_calls (stopwatch_decorate 0) [(1 : ℚ), 3]).input = 3 ∧
    (stopwatch_calls (stopwatch_decorate 0) [(1 : ℚ), 3]).props.count = 2 ∧
    (stopwatch_calls (stopwatch_decorate 0) [(1 : ℚ), 3]).props.avg = 2 := by
  obtain ⟨h1, h2, h3⟩ := stopwatch_statistics 0 [(1 : ℚ), 3] (by simp)
  refine ⟨?_, ?_, ?_⟩
  · rw [h1]
    rfl
  · rw [h2]
    rfl
  · rw [h3]
    norm_num

/-- Claim C7 (code bug): `run_before(cb)` around `fn(a, b=2)`, called as
`wrapped(1, b=5)`.  `fill_default_kwargs` overwrites the caller's
keyword argument `b=5` with the default `2`, so the callback observes
`(1, b=2)` and the wrapper returns `fn(1, b=2) = 3` — not the output
`6` that `fn` produces at the call's own arguments (second
conjunct). -/
theorem run_before_overwrites_supplied_kwarg :
    run_before_wrapped [0] addFn [PyVal.vint 1] [("b", PyVal.vint 5)] =
      (PyVal.vint 3, [(0, [PyVal.vint 1], [("b", PyVal.vint 2)])]) ∧
    (addFn.body (callBindings addFn [PyVal.vint 1] [("b", PyVal.vint 5)])).2 =
      PyVal.vint 6 := by
  exact ⟨rfl, rfl⟩

/-- Claim C8 counterexample: two distinct function objects (two lambdas
defined in module `m`, distinguished by their object identity) share
module and qualified name, so `get_unique_func_name` gives them the
same key: distinct functions do collide. -/
theorem distinct_functions_key_collision :
    (⟨"m", "<lambda>", 0⟩ : PyFunction) ≠ (⟨"m", "<lambda>", 1⟩ : PyFunction) ∧
    get_unique_func_name ⟨"m", "<lambda>", 0⟩ =
      get_unique_func_name ⟨"m", "<lambda>", 1⟩ := by
  exact ⟨by decide, rfl⟩

/-- Claim C8 (amended): resolution is deterministic — the key depends
only on the function's module and qualified name — and within a fixed
module two functions receive the same key exactly when their qualified
names are equal; distinct function objects sharing both (such as two
lambdas in one module) therefore collide. -/
theorem key_eq_iff_qualname_eq (f g : PyFunction) (h : f.module = g.module) :
    get_unique_func_name f = get_unique_func_name g ↔
      f.qualname = g.qualname := by
  rw [get_unique_func_name, get_unique_func_name, h]
  constructor
  · intro hk
    have hd := congrArg String.data hk
    rw [String.data_append, String.data_append, String.data_append,
      String.data_append] at hd
    exact String.ext (List.append_cancel_left hd)
  · intro hq
    rw [hq]

/-- Claim C8 witness: the amended theorem applied to two function
objects in module `m` with equal qualified name `f`: their keys
coincide. -/
theorem key_eq_iff_qualname_eq_witness :
    get_unique_func_name ⟨"m", "f", 0⟩ = get_unique_func_name ⟨"m", "f", 1⟩ :=
  (key_eq_iff_qualname_eq ⟨"m", "f", 0⟩ ⟨"m", "f", 1⟩ rfl).mpr rfl

/-- Claim C9: the `profile` and `stopwatch` wrappers never alter the
wrapped call's outcome: whatever the original function does — return a
value or raise — the wrapped call yields exactly that result.  (The
measurement operations themselves — profiler toggles, clock reads, the
statistics update — are total state operations and cannot fail.) -/
theorem measurement_preserves_outcome
    (f : List PyVal → Except PyErr PyVal) (args : List PyVal)
    (e : StopEntry) (t : ℚ) :
    (profile_call f args).2 = f args ∧
    (stopwatch_wrapped e t f args).2 = f args := by
  rcases hf : f args with err | v <;>
    simp [profile_call, stopwatch_wrapped, hf]

/-- Claim C10: with the predicate left at its default `lambda x: x`,
every call of a `fire_if`-wrapped function raises `TypeError`: the
predicate accepts exactly one positional argument but is invoked with
`(output, self, *args, **kwargs)` — at least two. -/
theorem fire_if_default_pred_raises (events_to_fire : List Nat)
    (func : List PyVal → List (String × PyVal) → PyVal)
    (args : List PyVal) (kwargs : List (String × PyVal)) :
    fire_if_wrapped events_to_fire defaultPred func args kwargs =
      Except.error PyErr.typeError := by
  have hc : callPred defaultPred (func args kwargs :: PyVal.vinst :: args) kwargs =
      Except.error PyErr.typeError := by
    rw [callPred, if_neg]
    rintro ⟨h1 | h1, -⟩
    · simp [defaultPred] at h1
    · simp [defaultPred] at h1
  show (match callPred defaultPred (func args kwargs :: PyVal.vinst :: args) kwargs with
    | Except.error e => Except.error e
    | Except.ok fire_event =>
        Except.ok (func args kwargs,
          if truthy fire_event then
            events_to_fire.map
              (fun ev => (⟨ev, func args kwargs, args, kwargs⟩ : FiredEvent))
          else [])) = _
  rw [hc]

end Pojang
